import Mathlib

/-!
Shallow embedding of the chunked multi-modal fusion engine of this repository
(src/Server2/agents/vision_agent.py, audio_agent.py, master_agent.py).

Python strings are modelled as Lean `String`, Python `float` confidences as `ℚ`
(all confidences here are finite decimal products of 1.0, 0.7, 0.8, 0.5 and the
claims only use order comparisons and exact products of those constants),
Python `int` as `Int`, and dictionaries as structures.  Only the fields the
fusion engine reads are modelled; purely cosmetic fields (base64 image data,
running statistics) are omitted and noted at each definition.
-/

/-- Test whether the first list is an initial run of the second
(helper for `strContains`). -/
def isPrefixL : List Char → List Char → Bool
  | [], _ => true
  | _ :: _, [] => false
  | p :: ps, c :: cs => p == c && isPrefixL ps cs

/-- Test whether `pat` occurs contiguously inside `l`
(helper for `strContains`). -/
def containsSub : List Char → List Char → Bool
  | [], pat => pat.isEmpty
  | c :: t, pat => isPrefixL pat (c :: t) || containsSub t pat

/-- Substring containment, modelling the Python expression `pat in s`. -/
def strContains (s pat : String) : Bool :=
  containsSub s.toList pat.toList

theorem isPrefixL_iff (pat l : List Char) : isPrefixL pat l = true ↔ pat <+: l := by
  induction pat generalizing l with
  | nil => simp [isPrefixL]
  | cons p ps ih =>
      cases l with
      | nil => simp [isPrefixL]
      | cons c cs => simp [isPrefixL, ih, List.cons_prefix_cons]

theorem containsSub_iff (l pat : List Char) : containsSub l pat = true ↔ pat <:+: l := by
  induction l with
  | nil => simp [containsSub, List.isEmpty_iff]
  | cons c t ih => simp [containsSub, isPrefixL_iff, ih, List.infix_cons_iff]

theorem strContains_iff (s pat : String) :
    strContains s pat = true ↔ pat.toList <:+: s.toList := by
  simp [strContains, containsSub_iff]

/-- Python `str.lower()`, lower-casing ASCII letters characterwise, which is
faithful for the ASCII keyword sets used by this repository. -/
def pyLower (s : String) : String := String.mk (s.toList.map Char.toLower)

/-- Python `str.strip()`: drop whitespace from both ends. -/
def pyStrip (s : String) : String :=
  String.mk (((s.toList.dropWhile Char.isWhitespace).reverse.dropWhile Char.isWhitespace).reverse)

/-- Decimal value of a digit list (helper for `pyIntParse`). -/
def decimalValue (ds : List Char) : Nat :=
  ds.foldl (fun acc c => 10 * acc + (c.toNat - 48)) 0

/-- Python `int(s)` on a string: surrounding whitespace is ignored, an optional
single `+` or `-` sign is followed by a non-empty run of decimal digits;
anything else raises `ValueError`, modelled as `none`.  (Python additionally
accepts grouping underscores and non-ASCII digits; those inputs do not occur in
this development and are modelled as failures.) -/
def pyIntParse (s : String) : Option Int :=
  match (pyStrip s).toList with
  | [] => none
  | '+' :: ds =>
      if ds.isEmpty then none
      else if ds.all Char.isDigit then some ((decimalValue ds : Nat) : Int) else none
  | '-' :: ds =>
      if ds.isEmpty then none
      else if ds.all Char.isDigit then some (-((decimalValue ds : Nat) : Int)) else none
  | ds =>
      if ds.all Char.isDigit then some ((decimalValue ds : Nat) : Int) else none

/-- Split a character list at the first colon (helper for `splitFirstColon`). -/
def splitFirstColonL : List Char → Option (List Char × List Char)
  | [] => none
  | c :: t =>
      if c == ':' then some ([], t)
      else match splitFirstColonL t with
           | none => none
           | some (a, b) => some (c :: a, b)

/-- Python `s.split(':', 1)`: `none` when `s` has no colon, otherwise the part
before the first colon and the whole remainder after it. -/
def splitFirstColon (s : String) : Option (String × String) :=
  match splitFirstColonL s.toList with
  | none => none
  | some (a, b) => some (String.mk a, String.mk b)

/-- Python slice `l[-n:]`: the last `min n l.length` elements (for `n > 0`). -/
def takeLast (n : Nat) (l : List α) : List α := l.drop (l.length - n)

/-! ## Vision agent (src/Server2/agents/vision_agent.py) -/

/-- Hedge words discounting confidence by 0.7 in `VisionAgent._parse_analysis`
(line 126). -/
def hedge_words : List String := ["maybe", "possibly", "unclear", "might"]

/-- Low-visibility phrases discounting confidence by 0.8 in
`VisionAgent._parse_analysis` (line 128). -/
def low_visibility_phrases : List String := ["difficult to see", "partially visible"]

/-- Confidence estimate of `VisionAgent._parse_analysis` (lines 124-129):
starts at 1.0, multiplied by 0.7 when the lowered details contain a hedge word
and by 0.8 when they contain a low-visibility phrase. -/
def detail_confidence (details : String) : ℚ :=
  let c1 : ℚ := 1
  let c2 := if hedge_words.any (fun w => strContains (pyLower details) w) then c1 * (7/10) else c1
  let c3 := if low_visibility_phrases.any (fun w => strContains (pyLower details) w) then c2 * (8/10) else c2
  c3

/-- `VisionAgent._parse_analysis` (lines 116-134): split once on the first
colon; the left part must parse as an integer via Python `int`, the right part
(stripped) becomes the details, with the lexical confidence estimate; any
failure (no colon, or `int` raising `ValueError`) yields `(0, raw text, 0.5)`. -/
def parse_analysis (analysis : String) : Int × String × ℚ :=
  match splitFirstColon analysis with
  | some (l, r) =>
      match pyIntParse (pyStrip l) with
      | some count => (count, pyStrip r, detail_confidence (pyStrip r))
      | none => (0, analysis, 1/2)
  | none => (0, analysis, 1/2)

/-- `VisionAgent._get_confidence_level` (lines 79-85). -/
def get_confidence_level (confidence : ℚ) : String :=
  if confidence ≥ 8/10 then "high"
  else if confidence ≥ 5/10 then "medium"
  else "low"

/-- Danger keywords of `VisionAgent._analyze_segment` (lines 202-203). -/
def vision_danger_keywords : List String :=
  ["risk", "hazard", "danger", "unsafe", "injured", "trapped"]

/-- Safety flag of `VisionAgent._analyze_segment` (lines 201-203): UNSAFE when
the lowered raw analysis text contains any vision danger keyword, else SAFE. -/
def segment_safety_status (analysis : String) : String :=
  if vision_danger_keywords.any (fun k => strContains (pyLower analysis) k) then "UNSAFE" else "SAFE"

/-- One per-segment analysis record (`AnalysisResult` dataclass, lines 50-58;
the optional base64 `image_data` field is not modelled). -/
structure AnalysisResult where
  coordinates : Nat × Nat × Nat × Nat
  analysis : String
  human_count : Int
  details : String
  confidence : ℚ
  safety_status : String
deriving DecidableEq

/-- Python `max(results, key=fun r => f r)` on a list: `none` on the empty list
(where Python raises), otherwise scans left to right keeping the current best
and replacing it only on a strictly greater key, so the first maximal element
wins ties. -/
def pyMaxBy (f : α → ℚ) : List α → Option α
  | [] => none
  | x :: xs => some (xs.foldl (fun best y => if f y > f best then y else best) x)

/-- Frame-level report assembled by `VisionAgent._aggregate_results`
(lines 301-335); the `stats` and `image_data` entries are not modelled. -/
structure FinalReport where
  total_human_count : Int
  key_details : List String
  segments : List ((Nat × Nat × Nat × Nat) × String × ℚ × String)
  confidence_level : String
  safety_statuses : List String
deriving DecidableEq

/-- `VisionAgent._aggregate_results` (lines 301-335): the initial report fixes
`confidence_level` to "high"; the maximum-confidence result (Python `max` with
a key) supplies `total_human_count`, the single formatted key detail and the
safety status; all segments are retained.  The input list is the list of
non-error results collected by `process_image`. -/
def aggregate_results (results : List AnalysisResult) : FinalReport :=
  let base : FinalReport :=
    { total_human_count := 0
      key_details := []
      segments := []
      confidence_level := "high"
      safety_statuses := [] }
  let report :=
    match pyMaxBy (fun r => r.confidence) results with
    | none => base
    | some w =>
        { base with
          total_human_count := w.human_count
          key_details := [toString w.human_count ++ ": " ++ w.details]
          safety_statuses := [w.safety_status] }
  { report with
    segments := results.map (fun r => (r.coordinates, r.analysis, r.confidence, r.safety_status)) }

/-- Python `range(0, stop, step)` for a `Nat` stop (a negative Python stop is
an empty range, matched by truncated `Nat` subtraction at all call sites); the
`step = 0` case (a Python `ValueError`) is modelled as the empty list and never
used. -/
def pyRangeN (stop step : Nat) : List Nat :=
  if step = 0 then [] else (List.range ((stop + step - 1) / step)).map (fun i => i * step)

/-- `VisionAgent._generate_segments` (lines 227-250): row-major scan stepping
by `stride` while the coordinate is below `size - stride/2`, skipping tiles
whose clamped width or height falls below `min_segment_size`, and emitting the
clamped bounding box `(x, y, min (x+window) width, min (y+window) height)`. -/
def generate_segments (width height window_size stride min_segment_size : Nat) :
    List (Nat × Nat × Nat × Nat) :=
  (pyRangeN (height - stride / 2) stride).flatMap (fun y =>
    (pyRangeN (width - stride / 2) stride).filterMap (fun x =>
      if min (x + window_size) width - x < min_segment_size ∨
         min (y + window_size) height - y < min_segment_size then none
      else some (x, y, min (x + window_size) width, min (y + window_size) height)))

/-! ## Audio agent (src/Server2/agents/audio_agent.py) -/

/-- Hedge words discounting audio confidence by 0.7 in
`AudioAgent._analyze_risk` (line 163). -/
def audio_hedge_words : List String := ["maybe", "possibly", "unclear"]

/-- Uncertainty phrases discounting audio confidence by 0.8 in
`AudioAgent._analyze_risk` (line 165). -/
def audio_uncertainty_phrases : List String := ["difficult to determine", "uncertain"]

/-- Confidence estimate of `AudioAgent._analyze_risk` (lines 161-166) on the
risk classifier's explanation text: starts at 1.0, multiplied by 0.7 when the
lowered text contains an audio hedge word and by 0.8 when it contains an audio
uncertainty phrase. -/
def audio_risk_confidence (analysis : String) : ℚ :=
  let c1 : ℚ := 1
  let c2 := if audio_hedge_words.any (fun w => strContains (pyLower analysis) w) then c1 * (7/10) else c1
  let c3 := if audio_uncertainty_phrases.any (fun w => strContains (pyLower analysis) w) then c2 * (8/10) else c2
  c3

/-! ## Master agent (src/Server2/agents/master_agent.py) -/

/-- Danger keywords of `MasterAgent._assess_danger_level` (line 303). -/
def master_danger_keywords : List String :=
  ["injured", "trapped", "risk", "hazard", "danger", "emergency"]

/-- Keyword test of `MasterAgent._assess_danger_level` (line 305): the lowered
detail string contains some master danger keyword. -/
def detailHasDangerKeyword (detail : String) : Bool :=
  master_danger_keywords.any (fun keyword => strContains (pyLower detail) keyword)

/-- Danger score of `MasterAgent._assess_danger_level` (lines 293-311):
2 when audio danger is flagged (`audio_results.get("danger_detected")` truthy),
plus 1 per key detail containing a master danger keyword (a missing
`key_details` entry behaves as the empty list), plus 1 when the danger-level
history is non-empty and every level of its `[-3:]` slice equals "high". -/
def assess_danger_score (danger_detected : Bool) (key_details : List String)
    (danger_level_history : List String) : Nat :=
  let s1 : Nat := if danger_detected then 0 + 2 else 0
  let s2 := key_details.foldl
    (fun acc detail => if detailHasDangerKeyword detail then acc + 1 else acc) s1
  if danger_level_history.isEmpty then s2
  else if (takeLast 3 danger_level_history).all (fun level => level == "high") then s2 + 1
  else s2

/-- Level mapping of `MasterAgent._assess_danger_level` (lines 313-318). -/
def assess_danger_level (danger_detected : Bool) (key_details : List String)
    (danger_level_history : List String) : String :=
  let danger_score := assess_danger_score danger_detected key_details danger_level_history
  if danger_score ≥ 3 then "high"
  else if danger_score ≥ 1 then "medium"
  else "low"

/-- Safety status derivation of `MasterAgent._analyze_situation` (line 261). -/
def safety_status_of (danger_level : String) : String :=
  if danger_level == "low" then "SAFE" else "UNSAFE"

/-- Chunk tracking fields of `MasterAgent` (`last_chunk_id`, `last_chunk_time`,
lines 98-99); times are modelled as exact rationals. -/
structure MasterState where
  last_chunk_id : Int
  last_chunk_time : ℚ
deriving DecidableEq

/-- Warnings and outcome of one `MasterAgent.process_chunk` call. -/
structure ChunkOutcome where
  seq_break_warning : Bool
  time_gap_warning : Bool
  is_error : Bool
deriving DecidableEq

/-- Effect of `MasterAgent.process_chunk` (lines 163-239) on the chunk-tracking
fields.  The sequence and timing checks (lines 169-174) always run first
against the stored state; `ok` records whether the body reaches the normal
return (lines 176-231), in which case `last_chunk_id` and `last_chunk_time`
are set to the observed chunk id and the finishing time (lines 206-208); the
exception path (lines 233-239) returns an error result and performs no update
to these fields. -/
def process_chunk_tracking (st : MasterState) (chunk_id : Int)
    (chunk_start_time finish_time : ℚ) (ok : Bool) : ChunkOutcome × MasterState :=
  let seq_break := chunk_id != st.last_chunk_id + 1
  let time_gap := chunk_start_time - st.last_chunk_time > 2
  if ok then
    ({ seq_break_warning := seq_break, time_gap_warning := time_gap, is_error := false },
     { last_chunk_id := chunk_id, last_chunk_time := finish_time })
  else
    ({ seq_break_warning := seq_break, time_gap_warning := time_gap, is_error := true }, st)

/-! ## General lemmas about the embedded operations -/

theorem foldl_count (p : α → Bool) (l : List α) (n : Nat) :
    l.foldl (fun acc d => if p d then acc + 1 else acc) n = n + (l.filter p).length := by
  induction l generalizing n with
  | nil => simp
  | cons x xs ih => by_cases h : p x <;> simp [h, ih] <;> omega

/-- Reference formulation of "the first maximal element wins": the head wins
unless the rest's first maximal element is strictly better. -/
def firstMaxBy (f : α → ℚ) : List α → Option α
  | [] => none
  | x :: xs =>
      match firstMaxBy f xs with
      | none => some x
      | some m => if f m > f x then some m else some x

theorem firstMaxBy_eq_none (f : α → ℚ) (l : List α) (h : firstMaxBy f l = none) : l = [] := by
  cases l with
  | nil => rfl
  | cons x xs =>
      cases hxs : firstMaxBy f xs <;> simp [firstMaxBy, hxs] at h <;> split at h <;> simp at h

theorem foldl_max_eq (f : α → ℚ) (xs : List α) (x : α) :
    xs.foldl (fun best y => if f y > f best then y else best) x =
      (match firstMaxBy f xs with
       | none => x
       | some m => if f m > f x then m else x) := by
  induction xs generalizing x with
  | nil => simp [firstMaxBy]
  | cons y ys ih =>
      rw [List.foldl_cons, ih]
      cases hys : firstMaxBy f ys with
      | none => simp [firstMaxBy, hys]
      | some m =>
          simp only [firstMaxBy, hys]
          by_cases h1 : f y > f x <;> by_cases h2 : f m > f y <;> by_cases h3 : f m > f x <;>
            simp [h1, h2, h3] <;> first | rfl | (exfalso; linarith)

theorem pyMaxBy_eq_firstMaxBy (f : α → ℚ) (l : List α) : pyMaxBy f l = firstMaxBy f l := by
  cases l with
  | nil => rfl
  | cons x xs =>
      rw [pyMaxBy, foldl_max_eq]
      cases hxs : firstMaxBy f xs <;> simp [firstMaxBy, hxs]
      split <;> rfl

theorem firstMaxBy_decomp (f : α → ℚ) (l : List α) :
    ∀ w, firstMaxBy f l = some w →
      ∃ l₁ l₂, l = l₁ ++ w :: l₂ ∧ (∀ y ∈ l₁, f y < f w) ∧ (∀ y ∈ l₂, f y ≤ f w) := by
  induction l with
  | nil => intro w h; simp [firstMaxBy] at h
  | cons x xs ih =>
      intro w h
      cases hxs : firstMaxBy f xs with
      | none =>
          have hnil : xs = [] := firstMaxBy_eq_none f xs hxs
          subst hnil
          simp only [firstMaxBy] at h
          obtain rfl : x = w := Option.some.inj h
          exact ⟨[], [], by simp, by simp, by simp⟩
      | some m =>
          simp only [firstMaxBy, hxs] at h
          by_cases hc : f m > f x
          · rw [if_pos hc] at h
            obtain rfl : m = w := Option.some.inj h
            obtain ⟨l₁, l₂, hdec, hlt, hle⟩ := ih _ hxs
            refine ⟨x :: l₁, l₂, by simp [hdec], ?_, hle⟩
            intro y hy
            rcases List.mem_cons.mp hy with rfl | hy
            · exact hc
            · exact hlt y hy
          · rw [if_neg hc] at h
            obtain rfl : x = w := Option.some.inj h
            refine ⟨[], xs, by simp, by simp, ?_⟩
            obtain ⟨l₁, l₂, hdec, hlt, hle⟩ := ih m hxs
            intro y hy
            rw [hdec] at hy
            rcases List.mem_append.mp hy with hy | hy
            · have := hlt y hy; push_neg at hc; linarith
            · rcases List.mem_cons.mp hy with rfl | hy
              · push_neg at hc; exact hc
              · have := hle y hy; push_neg at hc; linarith

theorem anyStrContains_iff (ws : List String) (s : String) :
    (ws.any fun w => strContains s w) = true ↔ ∃ w ∈ ws, w.toList <:+: s.toList := by
  simp [List.any_eq_true, strContains_iff]

theorem safety_status_iff (danger_level : String) :
    safety_status_of danger_level = "SAFE" ↔ danger_level = "low" := by
  by_cases h : danger_level = "low" <;> simp [safety_status_of, h]

theorem assess_danger_score_eq (danger_detected : Bool) (key_details : List String)
    (danger_level_history : List String) :
    assess_danger_score danger_detected key_details danger_level_history =
      (if danger_detected then 2 else 0) +
      (key_details.filter detailHasDangerKeyword).length +
      (if danger_level_history.isEmpty = false ∧
          (takeLast 3 danger_level_history).all (fun level => level == "high") = true
       then 1 else 0) := by
  rw [assess_danger_score, foldl_count]
  cases danger_detected <;>
    cases he : danger_level_history.isEmpty <;>
      cases ha : (takeLast 3 danger_level_history).all (fun level => level == "high") <;>
        simp [he, ha] <;> omega

/-! ## Claims -/

/-- C1: for every chunk, the fused danger level equals the additive score
(+2 on audio danger, +1 per danger-keyword observation, +1 history bonus)
mapped as score ≥ 3 to "high", score ≥ 1 to "medium", else "low", and the
safety status equals "SAFE" exactly when the danger level is "low". -/
theorem C1_fused_danger_mapping (danger_detected : Bool)
    (key_details danger_level_history : List String) :
    (assess_danger_level danger_detected key_details danger_level_history =
      (if (if danger_detected then 2 else 0) +
          (key_details.filter detailHasDangerKeyword).length +
          (if danger_level_history.isEmpty = false ∧
              (takeLast 3 danger_level_history).all (fun level => level == "high") = true
           then 1 else 0) ≥ 3
       then "high"
       else if (if danger_detected then 2 else 0) +
          (key_details.filter detailHasDangerKeyword).length +
          (if danger_level_history.isEmpty = false ∧
              (takeLast 3 danger_level_history).all (fun level => level == "high") = true
           then 1 else 0) ≥ 1
       then "medium" else "low")) ∧
    (safety_status_of (assess_danger_level danger_detected key_details danger_level_history) =
        "SAFE" ↔
      assess_danger_level danger_detected key_details danger_level_history = "low") := by
  refine ⟨?_, safety_status_iff _⟩
  simp only [assess_danger_level, assess_danger_score_eq]

/-- C3 counterexample: with a single prior record "high" (fewer than 3 records)
the +1 escalation bonus is nevertheless applied, giving score 1 and level
"medium" where the claim predicts score 0 and level "low". -/
theorem C3_history_bonus_cex :
    assess_danger_score false [] ["high"] = 1 ∧
    assess_danger_level false [] ["high"] = "medium" ∧
    (["high"] : List String).length < 3 := by
  decide

/-- C3 amended: the +1 escalation bonus is applied exactly when the danger
history is non-empty and every level in its last-three slice is "high"; for a
history of at most 3 records that slice is the whole history, so one or two
all-"high" records already trigger the bonus. -/
theorem C3_history_bonus_amended (danger_detected : Bool)
    (key_details danger_level_history : List String) :
    (assess_danger_score danger_detected key_details danger_level_history =
      (if danger_detected then 2 else 0) +
      (key_details.filter detailHasDangerKeyword).length +
      (if danger_level_history ≠ [] ∧ ∀ level ∈ takeLast 3 danger_level_history, level = "high"
       then 1 else 0)) ∧
    (danger_level_history.length ≤ 3 →
      takeLast 3 danger_level_history = danger_level_history) := by
  constructor
  · rw [assess_danger_score_eq]
    have hiff : (danger_level_history.isEmpty = false ∧
        (takeLast 3 danger_level_history).all (fun level => level == "high") = true) ↔
        (danger_level_history ≠ [] ∧
          ∀ level ∈ takeLast 3 danger_level_history, level = "high") := by
      simp [List.isEmpty_eq_false, List.all_eq_true]
    rw [if_congr hiff rfl rfl]
  · intro h
    have h0 : danger_level_history.length - 3 = 0 := by omega
    simp [takeLast, h0]

/-- C3 amended, witnessed at the concrete history ["high", "high"]: the bonus
fires with only two prior records. -/
theorem C3_history_bonus_amended_witness :
    assess_danger_score false [] ["high", "high"] = 1 ∧
    takeLast 3 ["high", "high"] = ["high", "high"] := by
  have h := C3_history_bonus_amended false [] ["high", "high"]
  refine ⟨?_, h.2 (by norm_num)⟩
  rw [h.1]
  decide

/-- C4 counterexample: the observation "Unsafe area" contains the claimed
keyword "unsafe" yet the fuser awards no point for it, while "emergency exit"
contains no keyword of the claimed set yet earns +1. -/
theorem C4_keyword_set_cex :
    strContains (pyLower "Unsafe area") "unsafe" = true ∧
    detailHasDangerKeyword "Unsafe area" = false ∧
    assess_danger_score false ["Unsafe area"] [] = 0 ∧
    assess_danger_score false ["emergency exit"] [] = 1 := by
  decide

/-- C4 amended: the fuser awards +1 exactly when the lowered observation
contains one of its own six keywords (injured, trapped, risk, hazard, danger,
emergency), while the segment analyzer's safety flag uses the different set
(risk, hazard, danger, unsafe, injured, trapped). -/
theorem C4_keyword_set_amended (detail : String) :
    (detailHasDangerKeyword detail = true ↔
      ∃ keyword ∈ master_danger_keywords, keyword.toList <:+: (pyLower detail).toList) ∧
    (segment_safety_status detail = "UNSAFE" ↔
      ∃ keyword ∈ vision_danger_keywords, keyword.toList <:+: (pyLower detail).toList) := by
  have h1 := anyStrContains_iff master_danger_keywords (pyLower detail)
  have h2 := anyStrContains_iff vision_danger_keywords (pyLower detail)
  constructor
  · rw [detailHasDangerKeyword]
    exact h1
  · rw [segment_safety_status, ← h2]
    cases hb : (vision_danger_keywords.any fun k => strContains (pyLower detail) k) <;> simp [hb]

/-- C4 amended, witnessed concretely: "emergency exit" is keyword-matched by
the fuser, and "Unsafe area" flips the analyzer's safety flag. -/
theorem C4_keyword_set_amended_witness :
    detailHasDangerKeyword "emergency exit" = true ∧
    segment_safety_status "Unsafe area" = "UNSAFE" := by
  constructor
  · exact (C4_keyword_set_amended "emergency exit").1.mpr
      ⟨"emergency", by decide,
        (strContains_iff (pyLower "emergency exit") "emergency").mp (by decide)⟩
  · exact (C4_keyword_set_amended "Unsafe area").2.mpr
      ⟨"unsafe", by decide,
        (strContains_iff (pyLower "Unsafe area") "unsafe").mp (by decide)⟩

/-- C2: for every non-empty list of non-error segment results, the aggregated
total human count is the human count of the single maximum-confidence result,
ties broken by earliest position (every earlier result is strictly less
confident, every result is at most as confident), and the key observations are
exactly the one entry "<count>: <detail_text>" of that same winner. -/
theorem C2_aggregation_winner (results : List AnalysisResult) (h : results ≠ []) :
    ∃ w l₁ l₂, results = l₁ ++ w :: l₂ ∧
      (∀ r ∈ l₁, r.confidence < w.confidence) ∧
      (∀ r ∈ results, r.confidence ≤ w.confidence) ∧
      (aggregate_results results).total_human_count = w.human_count ∧
      (aggregate_results results).key_details =
        [toString w.human_count ++ ": " ++ w.details] := by
  cases hw : pyMaxBy (fun r => r.confidence) results with
  | none =>
      rw [pyMaxBy_eq_firstMaxBy] at hw
      exact absurd (firstMaxBy_eq_none _ _ hw) h
  | some w =>
      rw [pyMaxBy_eq_firstMaxBy] at hw
      obtain ⟨l₁, l₂, hdec, hlt, hle⟩ := firstMaxBy_decomp _ _ _ hw
      refine ⟨w, l₁, l₂, hdec, hlt, ?_, ?_, ?_⟩
      · intro r hr
        rw [hdec] at hr
        rcases List.mem_append.mp hr with hr | hr
        · exact le_of_lt (hlt r hr)
        · rcases List.mem_cons.mp hr with rfl | hr
          · exact le_refl _
          · exact hle r hr
      · simp [aggregate_results, pyMaxBy_eq_firstMaxBy, hw]
      · simp [aggregate_results, pyMaxBy_eq_firstMaxBy, hw]

/-- First segment result of the determinism example with confidences
[0.9, 0.9, 0.5] (spec section 8). -/
def demoR1 : AnalysisResult :=
  ⟨(0, 0, 512, 512), "4: group near vehicle", 4, "group near vehicle", 9/10, "SAFE"⟩

/-- Second segment result of the determinism example, tying at 0.9. -/
def demoR2 : AnalysisResult :=
  ⟨(384, 0, 896, 512), "7: crowd by the wall", 7, "crowd by the wall", 9/10, "UNSAFE"⟩

/-- Third segment result of the determinism example, at 0.5. -/
def demoR3 : AnalysisResult :=
  ⟨(768, 0, 1024, 512), "2: two persons", 2, "two persons", 5/10, "SAFE"⟩

/-- Result list of the determinism example. -/
def demo_results : List AnalysisResult := [demoR1, demoR2, demoR3]

/-- C2 witnessed at confidences [0.9, 0.9, 0.5]: the first of the tying
0.9-results is the representative, so the aggregate reports its count 4 and
its formatted observation. -/
theorem C2_aggregation_winner_witness :
    (aggregate_results demo_results).total_human_count = 4 ∧
    (aggregate_results demo_results).key_details = ["4: group near vehicle"] := by
  obtain ⟨w, l₁, l₂, hdec, hlt, hle, htot, hkey⟩ :=
    C2_aggregation_winner demo_results (by simp [demo_results])
  have hw : w = demoR1 := by
    rcases l₁ with _ | ⟨a, _ | ⟨b, _ | ⟨c, l₁⟩⟩⟩
    · simp only [demo_results, List.nil_append, List.cons.injEq] at hdec
      exact hdec.1.symm
    · simp only [demo_results, List.cons_append, List.nil_append, List.cons.injEq] at hdec
      obtain ⟨rfl, rfl, -⟩ := hdec
      have := hlt demoR1 (by simp)
      exfalso
      rw [show demoR1.confidence = 9/10 from rfl, show demoR2.confidence = 9/10 from rfl] at this
      exact absurd this (by norm_num)
    · simp only [demo_results, List.cons_append, List.nil_append, List.cons.injEq] at hdec
      obtain ⟨rfl, rfl, rfl, -⟩ := hdec
      have := hlt demoR1 (by simp)
      exfalso
      rw [show demoR1.confidence = 9/10 from rfl, show demoR3.confidence = 5/10 from rfl] at this
      exact absurd this (by norm_num)
    · exfalso
      have := congrArg List.length hdec
      simp [demo_results] at this
  subst hw
  constructor
  · rw [htot]
    decide
  · rw [hkey]
    decide

/-- C5: the aggregated report's confidence level is hard-coded "high" for every
input, even though `_get_confidence_level` maps the winning confidence 0.3 to
"low"; the three-bucket mapping exists in the code but is never applied by the
aggregator. -/
theorem C5_confidence_level_bug :
    (∀ results : List AnalysisResult, (aggregate_results results).confidence_level = "high") ∧
    get_confidence_level (3/10) = "low" ∧
    (aggregate_results
      [⟨(0, 0, 512, 512), "1: unclear figure, difficult to see", 1,
        "unclear figure, difficult to see", 3/10, "SAFE"⟩]).confidence_level = "high" := by
  have hall : ∀ results : List AnalysisResult,
      (aggregate_results results).confidence_level = "high" := by
    intro results
    cases hw : pyMaxBy (fun r => r.confidence) results <;> simp [aggregate_results, hw]
  refine ⟨hall, ?_, hall _⟩
  simp only [get_confidence_level]
  norm_num

/-- C6 counterexample: the left side "-3" parses as a negative integer, so the
resulting human count is -3, not a non-negative default. -/
theorem C6_parse_nonneg_cex :
    (parse_analysis "-3: two people").1 = -3 ∧
    (parse_analysis "-3: two people").2.1 = "two people" ∧
    (-3 : Int) < 0 := by
  decide

/-- C6 amended: parsing splits once on the first colon and the left side must
parse as an integer (an optional sign is accepted, so the parsed count may be
negative); on any parse failure the result is count 0 with the raw text as the
detail. -/
theorem C6_parse_amended (s : String) :
    (∃ l r n, splitFirstColon s = some (l, r) ∧ pyIntParse (pyStrip l) = some n ∧
       (parse_analysis s).1 = n ∧ (parse_analysis s).2.1 = pyStrip r) ∨
    ((parse_analysis s).1 = 0 ∧ (parse_analysis s).2.1 = s) := by
  cases hsp : splitFirstColon s with
  | none => right; simp [parse_analysis, hsp]
  | some lr =>
      obtain ⟨l, r⟩ := lr
      cases hip : pyIntParse (pyStrip l) with
      | none => right; simp [parse_analysis, hsp, hip]
      | some n =>
          left
          exact ⟨l, r, n, rfl, hip, by simp [parse_analysis, hsp, hip],
            by simp [parse_analysis, hsp, hip]⟩

/-- C8 counterexample: the hedge word "might" and the low-visibility phrase
"partially visible" discount the vision confidence but leave the audio
confidence untouched, so the audio adapter does not use the segment analyzer's
word sets. -/
theorem C8_audio_discount_cex :
    audio_risk_confidence "might" = 1 ∧
    detail_confidence "might" = 7/10 ∧
    audio_risk_confidence "partially visible figure" = 1 ∧
    detail_confidence "partially visible figure" = 8/10 := by
  have a1 : (audio_hedge_words.any fun w => strContains (pyLower "might") w) = false := by decide
  have a2 : (audio_uncertainty_phrases.any fun w =>
      strContains (pyLower "might") w) = false := by decide
  have a3 : (audio_hedge_words.any fun w =>
      strContains (pyLower "partially visible figure") w) = false := by decide
  have a4 : (audio_uncertainty_phrases.any fun w =>
      strContains (pyLower "partially visible figure") w) = false := by decide
  have v1 : (hedge_words.any fun w => strContains (pyLower "might") w) = true := by decide
  have v2 : (low_visibility_phrases.any fun w =>
      strContains (pyLower "might") w) = false := by decide
  have v3 : (hedge_words.any fun w =>
      strContains (pyLower "partially visible figure") w) = false := by decide
  have v4 : (low_visibility_phrases.any fun w =>
      strContains (pyLower "partially visible figure") w) = true := by decide
  refine ⟨?_, ?_, ?_, ?_⟩
  · simp [audio_risk_confidence, a1, a2]
  · simp [detail_confidence, v1, v2]
  · simp [audio_risk_confidence, a3, a4]
  · simp [detail_confidence, v3, v4]

/-- C8 amended: the audio confidence is the product of two independent
discounts over the audio adapter's own word sets: 0.7 when the lowered
explanation contains one of maybe/possibly/unclear ("might" is absent), and
0.8 when it contains "difficult to determine" or "uncertain" (not the vision
low-visibility phrases). -/
theorem C8_audio_discount_amended (s : String) :
    audio_risk_confidence s =
      (if ∃ w ∈ audio_hedge_words, w.toList <:+: (pyLower s).toList then (7 : ℚ)/10 else 1) *
      (if ∃ w ∈ audio_uncertainty_phrases, w.toList <:+: (pyLower s).toList
       then (8 : ℚ)/10 else 1) := by
  have h1 := anyStrContains_iff audio_hedge_words (pyLower s)
  have h2 := anyStrContains_iff audio_uncertainty_phrases (pyLower s)
  rw [audio_risk_confidence, if_congr h1.symm rfl rfl, if_congr h2.symm rfl rfl]
  cases hb1 : (audio_hedge_words.any fun w => strContains (pyLower s) w) <;>
    cases hb2 : (audio_uncertainty_phrases.any fun w => strContains (pyLower s) w) <;>
      simp [hb1, hb2]

/-- C7: on a successfully processed chunk, the tracker emits a sequence-break
warning exactly when the chunk id is not the stored id plus one, the warning is
non-fatal (the outcome is not an error), and the stored id and time are updated
to the observed chunk's values unconditionally. -/
theorem C7_sequence_resync (st : MasterState) (chunk_id : Int) (t0 t1 : ℚ) :
    ((process_chunk_tracking st chunk_id t0 t1 true).2.last_chunk_id = chunk_id) ∧
    ((process_chunk_tracking st chunk_id t0 t1 true).2.last_chunk_time = t1) ∧
    ((process_chunk_tracking st chunk_id t0 t1 true).1.seq_break_warning = true ↔
      chunk_id ≠ st.last_chunk_id + 1) ∧
    ((process_chunk_tracking st chunk_id t0 t1 true).1.is_error = false) := by
  refine ⟨rfl, rfl, ?_, rfl⟩
  simp [process_chunk_tracking]

/-- C7 witnessed at a jump from stored id 5 directly to chunk 8: the warning
fires, processing is not an error, and the stored id resynchronizes to 8. -/
theorem C7_sequence_resync_witness :
    (process_chunk_tracking ⟨5, 0⟩ 8 0 1 true).2.last_chunk_id = 8 ∧
    (process_chunk_tracking ⟨5, 0⟩ 8 0 1 true).1.seq_break_warning = true ∧
    (process_chunk_tracking ⟨5, 0⟩ 8 0 1 true).1.is_error = false := by
  obtain ⟨h1, -, h3, h4⟩ := C7_sequence_resync ⟨5, 0⟩ 8 0 1
  exact ⟨h1, h3.mpr (by decide), h4⟩

/-- C9: every tile emitted by the segmenter has its clamped bounding box fully
inside the image and both clamped dimensions at least the minimum segment
size, and an image smaller than the minimum on either axis yields no tiles. -/
theorem C9_tile_bounds (width height window_size stride min_segment_size : Nat)
    (hM : 0 < min_segment_size) :
    (∀ b ∈ generate_segments width height window_size stride min_segment_size,
       b.1 ≤ b.2.2.1 ∧ b.2.2.1 ≤ width ∧ b.2.1 ≤ b.2.2.2 ∧ b.2.2.2 ≤ height ∧
       min_segment_size ≤ b.2.2.1 - b.1 ∧ min_segment_size ≤ b.2.2.2 - b.2.1) ∧
    (width < min_segment_size ∨ height < min_segment_size →
       generate_segments width height window_size stride min_segment_size = []) := by
  constructor
  · intro b hb
    rw [generate_segments] at hb
    obtain ⟨y, hy, hbx⟩ := List.mem_flatMap.mp hb
    obtain ⟨x, hx, hif⟩ := List.mem_filterMap.mp hbx
    by_cases hc : (min (x + window_size) width - x < min_segment_size ∨
        min (y + window_size) height - y < min_segment_size)
    · rw [if_pos hc] at hif
      exact absurd hif (by simp)
    · rw [if_neg hc] at hif
      obtain rfl := Option.some.inj hif
      push_neg at hc
      obtain ⟨hcx, hcy⟩ := hc
      dsimp only
      omega
  · intro h
    rw [generate_segments, List.flatMap_eq_nil_iff]
    intro y hy
    rw [List.filterMap_eq_nil_iff]
    intro x hx
    rcases h with h | h
    · have hc : min (x + window_size) width - x < min_segment_size ∨
          min (y + window_size) height - y < min_segment_size := by left; omega
      rw [if_pos hc]
    · have hc : min (x + window_size) width - x < min_segment_size ∨
          min (y + window_size) height - y < min_segment_size := by right; omega
      rw [if_pos hc]

/-- C9 witnessed at the defaults (window 512, stride 384, minimum 256) on a
100-wide image: the segmenter yields zero tiles instead of failing. -/
theorem C9_tile_bounds_witness :
    generate_segments 100 700 512 384 256 = [] :=
  (C9_tile_bounds 100 700 512 384 256 (by norm_num)).2 (Or.inl (by norm_num))

/-- C10 counterexample: when a chunk whose id equals the stored id fails, the
state is unchanged, yet the next chunk with the following id raises no
sequence-break warning, contrary to the claim's final consequence. -/
theorem C10_error_path_cex :
    (process_chunk_tracking ⟨5, 0⟩ 5 0 0 false).2 = (⟨5, 0⟩ : MasterState) ∧
    (process_chunk_tracking ⟨5, 0⟩ 5 0 0 false).1.is_error = true ∧
    (process_chunk_tracking ((process_chunk_tracking ⟨5, 0⟩ 5 0 0 false).2)
        6 1 1 true).1.seq_break_warning = false := by
  refine ⟨rfl, rfl, ?_⟩
  decide

/-- C10 amended: the exception path leaves the tracking state exactly as it
was, so a failed chunk does not resynchronize the tracker; consequently the
chunk following the failed chunk's id triggers a sequence-break warning
whenever the failed chunk's id differs from the stored id. -/
theorem C10_error_path_amended (st : MasterState) (chunk_id : Int) (t0 t1 : ℚ) :
    ((process_chunk_tracking st chunk_id t0 t1 false).2 = st) ∧
    ((process_chunk_tracking st chunk_id t0 t1 false).1.is_error = true) ∧
    (chunk_id ≠ st.last_chunk_id →
      ∀ (t2 t3 : ℚ) (ok : Bool),
        (process_chunk_tracking ((process_chunk_tracking st chunk_id t0 t1 false).2)
            (chunk_id + 1) t2 t3 ok).1.seq_break_warning = true) := by
  refine ⟨rfl, rfl, ?_⟩
  intro hne t2 t3 ok
  have hwarn : (chunk_id + 1 != st.last_chunk_id + 1) = true := by
    simp [bne_iff_ne]
    exact fun hcontra => hne (by omega)
  cases ok <;> simpa [process_chunk_tracking] using hwarn

/-- C10 amended, witnessed: chunk 7 fails against stored id 3; the state stays
at 3 and the follow-up chunk 8 raises a sequence-break warning. -/
theorem C10_error_path_amended_witness :
    (process_chunk_tracking ⟨3, 0⟩ 7 0 0 false).2 = (⟨3, 0⟩ : MasterState) ∧
    (process_chunk_tracking ((process_chunk_tracking ⟨3, 0⟩ 7 0 0 false).2)
        8 1 1 true).1.seq_break_warning = true := by
  obtain ⟨h1, -, h3⟩ := C10_error_path_amended ⟨3, 0⟩ 7 0 0
  refine ⟨h1, ?_⟩
  have := h3 (by decide) 1 1 true
  simpa using this
